import Mathlib

/-!
# Verification of the apple-slice game core (`src/code_v2.py`)

Shallow embedding of the game's simulation core: the `Apple` entity
lifecycle, the spawn scheduler, the gesture-matching algorithm, the input
pipeline and the session state machine.  Times, positions and speeds are
modelled as exact rationals (the source uses Python floats; all decision
logic is order comparisons and affine arithmetic, which the rationals model
exactly).  Hardware reads (encoder position, accelerometer triple, debounced
buttons, the power switch) are passed to the embedded functions as explicit
parameters; hardware writes (display, LED pixels, buzzer) are dropped, with
the LED *state machine* fields (`led_state`, `last_led_update`) kept because
the matching algorithm mutates them.
-/

namespace AppleGame

/-! ## Game constants (`code_v2.py` lines 416-458) -/

/-- Source `APPLE_SIZE = (8, 8)` -/
def APPLE_SIZE : ℚ × ℚ := (8, 8)

/-- Source `SCREEN_CENTER = (63, 35)` -/
def SCREEN_CENTER : ℚ × ℚ := (63, 35)

/-- Source `CUT_TIME_LIMIT = 4.0` -/
def CUT_TIME_LIMIT : ℚ := 4

/-- Source `RESPONSE_DELAY = 0.2` -/
def RESPONSE_DELAY : ℚ := 0.2

/-- Source `OLED_WIDTH = 128` -/
def OLED_WIDTH : ℚ := 128

/-- Source `OLED_HEIGHT = 64` -/
def OLED_HEIGHT : ℚ := 64

/-- The forbidden central rectangle
`INVALID_REGION = {"x_min": 45, "x_max": 81, "y_min": 27, "y_max": 45}`. -/
structure Region where
  x_min : ℚ
  x_max : ℚ
  y_min : ℚ
  y_max : ℚ

def INVALID_REGION : Region := ⟨45, 81, 27, 45⟩

/-- Source `SPAWN_POSITIONS` dict.  The source raises `KeyError` on any other key;
every call site passes one of the four keys, so the final `else` branch is
never reached with a fifth key in the modelled executions. -/
def SPAWN_POSITIONS (d : String) : ℚ × ℚ :=
  if d = "top" then (63, 0)
  else if d = "bottom" then (63, 63)
  else if d = "left" then (0, 31)
  else (127, 31)

/-- Source `SPEEDS` dict (same remark as `SPAWN_POSITIONS` about missing keys). -/
def SPEEDS (s : String) : ℚ :=
  if s = "slow" then 20
  else if s = "medium" then 35
  else if s = "fast" then 50
  else if s = "very_fast" then 70
  else 90

/-- One entry of the `LEVELS` table. -/
structure Level where
  name : String
  speed : String
  apples : ℕ
  time : ℚ
  difficulty : String
deriving DecidableEq

/-- Source `LEVELS` (lines 439-450). -/
def LEVELS : List Level :=
  [ ⟨"E1:EZ 10A 60S", "slow", 10, 60, "easy"⟩,
    ⟨"E2:EZ 15A 55S", "slow", 15, 55, "easy"⟩,
    ⟨"E3:EZ 20A 50S", "medium", 20, 50, "easy"⟩,
    ⟨"E4:EZ 25A 45S", "fast", 25, 45, "easy"⟩,
    ⟨"M1:MD 20A 45S", "medium", 20, 45, "medium"⟩,
    ⟨"M2:MD 25A 40S", "fast", 25, 40, "medium"⟩,
    ⟨"M3:MD 30A 35S", "very_fast", 30, 35, "medium"⟩,
    ⟨"H1:HD 25A 30S", "fast", 25, 30, "hard"⟩,
    ⟨"H2:HD 30A 25S", "very_fast", 30, 25, "hard"⟩,
    ⟨"H3:HD 35A 20S", "ultra", 35, 20, "hard"⟩ ]

/-- Source `DIFFICULTY_LEVELS` dict, as a partial map (`None` = key absent). -/
def DIFFICULTY_LEVELS (d : String) : Option ℕ :=
  if d = "easy" then some 0
  else if d = "medium" then some 4
  else if d = "hard" then some 7
  else none

/-- Source `DIFFICULTY_NAMES = ["EASY", "MEDIUM", "HARD"]` -/
def DIFFICULTY_NAMES : List String := ["EASY", "MEDIUM", "HARD"]

/-- Source `class GameState` (integer constants in the source). -/
inductive GameState where
  | MENU
  | PLAYING
  | GAME_OVER
  | PAUSED
deriving DecidableEq

/-! ## The `Apple` entity (lines 467-540) -/

/-- The field set of `Apple.__init__`.  The unit direction vector
`self.direction` is stored in `dirx`/`diry`. -/
structure Apple where
  spawn_direction : String
  speed : ℚ
  start_time : ℚ
  sliced : Bool
  entered_valid_zone : Bool
  valid_zone_entry_time : Option ℚ
  expired : Bool
  start_pos : ℚ × ℚ
  dirx : ℚ
  diry : ℚ
  x : ℚ
  y : ℚ
  expected_action : Option String
deriving DecidableEq

/-- Source `Apple._get_expected_action` (lines 493-503). -/
def expectedActionOf (d : String) : Option String :=
  if d = "top" then some "forward"
  else if d = "bottom" then some "backward"
  else if d = "left" then some "rotate_left"
  else if d = "right" then some "rotate_right"
  else none

/-- Source `Apple.__init__(spawn_direction, speed, start_time)` (lines 468-491).
The source computes the unit direction as `(dx/distance, dy/distance)` with
`distance = math.sqrt(dx*dx + dy*dy)`; for the `left`/`right` spawn points
that distance is irrational, so the unit vector is supplied here as the
explicit parameter `dir` (for `top` it is exactly `(0, 1)` and for `bottom`
exactly `(0, -1)`; see `top_unit_direction_exact`). -/
def Apple.spawn (spawn_direction : String) (speed : ℚ) (start_time : ℚ)
    (dir : ℚ × ℚ) : Apple :=
  let sp := SPAWN_POSITIONS spawn_direction
  { spawn_direction := spawn_direction
    speed := speed
    start_time := start_time
    sliced := false
    entered_valid_zone := false
    valid_zone_entry_time := none
    expired := false
    start_pos := sp
    dirx := dir.1
    diry := dir.2
    x := sp.1
    y := sp.2
    expected_action := expectedActionOf spawn_direction }

/-- Source `Apple._is_in_invalid_region` as a predicate on a position. -/
def in_invalid_region (x y : ℚ) : Bool :=
  decide (INVALID_REGION.x_min ≤ x ∧ x ≤ INVALID_REGION.x_max ∧
          INVALID_REGION.y_min ≤ y ∧ y ≤ INVALID_REGION.y_max)

/-- Source `Apple._is_in_invalid_region(self)` (lines 529-532). -/
def Apple.is_in_invalid_region (a : Apple) : Bool :=
  in_invalid_region a.x a.y

/-- Source `Apple.is_in_valid_zone(self)` (lines 534-536). -/
def Apple.is_in_valid_zone (a : Apple) : Bool :=
  !a.is_in_invalid_region

/-- Source `Apple.update(self, current_time)` (lines 505-527), step for step:
no-op when sliced or expired; recompute position; zone entry; cut-window
expiry; off-screen expiry.  (If `entered_valid_zone` held with
`valid_zone_entry_time = None` the source would raise `TypeError`; that
state is unreachable, and the `none` branch here performs no expiry.) -/
def Apple.update (a : Apple) (current_time : ℚ) : Apple :=
  if a.sliced || a.expired then a
  else
    let elapsed := current_time - a.start_time
    let distance := a.speed * elapsed
    let x := a.start_pos.1 + a.dirx * distance
    let y := a.start_pos.2 + a.diry * distance
    let entered := a.entered_valid_zone || !(in_invalid_region x y)
    let entry :=
      if !a.entered_valid_zone && !(in_invalid_region x y) then some current_time
      else a.valid_zone_entry_time
    let expiredByTime :=
      entered &&
        (match entry with
         | some t => decide (current_time - t > CUT_TIME_LIMIT)
         | none => false)
    let expiredByBounds :=
      decide (x < -APPLE_SIZE.1 ∨ x > OLED_WIDTH + APPLE_SIZE.1 ∨
              y < -APPLE_SIZE.2 ∨ y > OLED_HEIGHT + APPLE_SIZE.2)
    { a with
      x := x
      y := y
      entered_valid_zone := entered
      valid_zone_entry_time := entry
      expired := expiredByTime || expiredByBounds }

/-- A whole sequence of `update` calls. -/
def Apple.updates (a : Apple) (ts : List ℚ) : Apple :=
  ts.foldl Apple.update a

/-- The position `update` computes at time `t` (a pure function of the
frozen spawn parameters). -/
def Apple.posAt (a : Apple) (t : ℚ) : ℚ × ℚ :=
  (a.start_pos.1 + a.dirx * (a.speed * (t - a.start_time)),
   a.start_pos.2 + a.diry * (a.speed * (t - a.start_time)))

/-- Whether the position computed at time `t` lies outside the forbidden
central rectangle. -/
def Apple.outsideAt (a : Apple) (t : ℚ) : Bool :=
  !(in_invalid_region (a.posAt t).1 (a.posAt t).2)

/-! ## The `Game` session (lines 542-928) -/

/-- The session fields of `Game.__init__` (lines 543-590), including the
lazily created game-over button fields of `_update_game_over` (modelled as
always-present fields with their first-use defaults).  Leading underscores
of the Python names are dropped. -/
structure Game where
  state : GameState
  current_difficulty_index : ℕ
  current_level_index : ℕ
  current_level : Option Level
  apples : List Apple
  sliced_count : ℕ
  game_start_time : ℚ
  last_apple_spawn_time : ℚ
  apple_spawn_interval : ℚ
  pause_start_time : ℚ
  total_pause_time : ℚ
  last_encoder_position : ℤ
  last_encoder_action_time : ℚ
  last_accel_y : ℚ
  last_accel_action_time : ℚ
  encoder_action_pending : Option (String × ℚ)
  accel_action_pending : Option (String × ℚ)
  led_state : String
  led_brightness : ℚ
  led_brightness_dir : ℤ
  last_led_update : ℚ
  button_last_state : Bool
  button_press_start_time : ℚ
  button_action_done : Bool
  game_over_button_last_state : Bool
  game_over_button_press_time : ℚ
  last_power_switch_state : Bool
deriving DecidableEq

/-- Python `str.lower()` on the pure-ASCII difficulty names, modelled
characterwise (equal to `String.toLower`, but stated over the character
list so that it evaluates). -/
def pyLower (s : String) : String := String.mk (s.data.map Char.toLower)

/-- Source `Game._update_level_index_from_difficulty` (lines 764-769). -/
def Game.update_level_index_from_difficulty (g : Game) : Game :=
  if g.current_difficulty_index < DIFFICULTY_NAMES.length then
    match DIFFICULTY_LEVELS
        (pyLower (DIFFICULTY_NAMES.getD g.current_difficulty_index "")) with
    | some idx => { g with current_level_index := idx }
    | none => g
  else g

/-- Source `Game.start_level(self, level_index)` (lines 592-615).  `time.monotonic()`
is passed as `now`; the returned `Bool` is the source's return value. -/
def Game.start_level (g : Game) (level_index : ℕ) (now : ℚ) : Game × Bool :=
  if h : level_index < LEVELS.length then
    let lvl := LEVELS.get ⟨level_index, h⟩
    ({ g with
        current_level_index := level_index
        current_level := some lvl
        apples := []
        sliced_count := 0
        game_start_time := now
        last_apple_spawn_time := now
        total_pause_time := 0
        apple_spawn_interval :=
          if 0 < lvl.apples then lvl.time / (lvl.apples : ℚ) else 999
        state := GameState.PLAYING
        led_state := "playing" }, true)
  else (g, false)

/-- Python `int()` on a rational: truncation toward zero. -/
def truncQ (q : ℚ) : ℤ :=
  if 0 ≤ q then ⌊q⌋ else ⌈q⌉

/-- The `while len(self.apples) < apples_to_spawn` spawn loop of
`Game._update_playing` (lines 788-790), with each iteration inlining
`Game.spawn_apple_at_time` (lines 617-626).  `dirs k` supplies
`random.choice(list(SPAWN_POSITIONS.keys()))` for the `k`-th apple
together with that direction's unit vector (see `Apple.spawn`). -/
def spawnLoop (speed game_start_time apple_spawn_interval : ℚ)
    (dirs : ℕ → String × (ℚ × ℚ)) (apples_to_spawn : ℤ)
    (apples : List Apple) : List Apple :=
  if h : (apples.length : ℤ) < apples_to_spawn then
    spawnLoop speed game_start_time apple_spawn_interval dirs apples_to_spawn
      (apples ++ [Apple.spawn (dirs apples.length).1 speed
        (game_start_time + (apples.length : ℚ) * apple_spawn_interval)
        (dirs apples.length).2])
  else apples
termination_by (apples_to_spawn - (apples.length : ℤ)).toNat
decreasing_by
  simp only [List.length_append, List.length_cons, List.length_nil]
  omega

/-- Source `Game._update_playing(self, current_time)` (lines 771-798).  When
`current_level` is `None` the source raises (caught by `Game.update`'s
`try`/`except`, leaving the state unchanged), modelled as the identity. -/
def Game.update_playing (g : Game) (dirs : ℕ → String × (ℚ × ℚ))
    (current_time : ℚ) : Game :=
  match g.current_level with
  | none => g
  | some lvl =>
    let adjusted_current_time := current_time - g.total_pause_time
    let elapsed := adjusted_current_time - g.game_start_time
    let remaining_time := lvl.time - elapsed
    if remaining_time ≤ 0 then
      { g with state := GameState.GAME_OVER, led_state := "game_over" }
    else
      let apples_to_spawn :=
        min (truncQ (elapsed / g.apple_spawn_interval) + 1) (lvl.apples : ℤ)
      let spawned := spawnLoop (SPEEDS lvl.speed) g.game_start_time
        g.apple_spawn_interval dirs apples_to_spawn g.apples
      let updated := spawned.map (fun apple => apple.update adjusted_current_time)
      { g with
          apples := updated
          led_state := if remaining_time ≤ 10 then "warning" else g.led_state }

/-- The countdown of `Game._draw_playing` (lines 1154-1158):
`remaining = max(0, self.current_level["time"] - elapsed)` on the
pause-adjusted clock. -/
def Game.countdown_remaining (g : Game) (current_time : ℚ) : ℚ :=
  match g.current_level with
  | none => 0
  | some lvl =>
    let adjusted_current_time := current_time - g.total_pause_time
    let elapsed := adjusted_current_time - g.game_start_time
    max 0 (lvl.time - elapsed)

/-- The `for apple in self.apples` loop of `Game._check_cut_action`
(lines 903-923), mirroring its `continue`/`break` structure.  Returns the
updated list and the source's `sliced_any` flag. -/
def check_cut_loop (adjusted_current_time : ℚ) (action : String) :
    List Apple → List Apple × Bool
  | [] => ([], false)
  | apple :: rest =>
    if apple.sliced || apple.expired then
      let p := check_cut_loop adjusted_current_time action rest
      (apple :: p.1, p.2)
    else if !apple.entered_valid_zone then
      let p := check_cut_loop adjusted_current_time action rest
      (apple :: p.1, p.2)
    else if !apple.is_in_valid_zone then
      let p := check_cut_loop adjusted_current_time action rest
      (apple :: p.1, p.2)
    else if apple.expected_action == some action then
      match apple.valid_zone_entry_time with
      | some entry =>
        if 0 ≤ adjusted_current_time - entry ∧
            adjusted_current_time - entry ≤ CUT_TIME_LIMIT then
          ({ apple with sliced := true } :: rest, true)
        else
          let p := check_cut_loop adjusted_current_time action rest
          (apple :: p.1, p.2)
      | none =>
        let p := check_cut_loop adjusted_current_time action rest
        (apple :: p.1, p.2)
    else
      let p := check_cut_loop adjusted_current_time action rest
      (apple :: p.1, p.2)

/-- The slice condition of the loop body, collapsed into one predicate:
an apple qualifies for `action` at pause-adjusted time `adjusted` when it
is neither sliced nor expired, has entered the valid zone, currently sits
outside the forbidden rectangle, expects `action`, and its zone-entry time
is within the cut-time window. -/
def cutQualifies (adjusted : ℚ) (action : String) (apple : Apple) : Bool :=
  !(apple.sliced || apple.expired) && apple.entered_valid_zone &&
    apple.is_in_valid_zone && (apple.expected_action == some action) &&
    (match apple.valid_zone_entry_time with
     | some entry =>
       decide (0 ≤ adjusted - entry ∧ adjusted - entry ≤ CUT_TIME_LIMIT)
     | none => false)

/-- Source `Game._check_cut_action(self, action)` (lines 897-928).  The fresh
`time.monotonic()` read of line 899 is the `current_time` parameter; the
`_play_sound` calls touch only the buzzer and are dropped. -/
def Game.check_cut_action (g : Game) (action : String) (current_time : ℚ) :
    Game :=
  let adjusted_current_time := current_time - g.total_pause_time
  let p := check_cut_loop adjusted_current_time action g.apples
  if p.2 then
    { g with
        apples := p.1
        sliced_count := g.sliced_count + 1
        led_state := "success"
        last_led_update := current_time }
  else if g.state = GameState.PLAYING then
    { g with
        apples := p.1
        led_state := "error"
        last_led_update := current_time }
  else
    { g with apples := p.1 }

/-- Source `Game._update_inputs(self, current_time)` (lines 834-895).
`encoder_pos` is the `encoder.position` read (with `ENCODER_AVAILABLE`),
`accel` the `accelerometer.acceleration` triple, and `power_off` the
`power_switch.value` read (`True` = switch off, which makes the source
return before the accelerometer section). -/
def Game.update_inputs (g : Game) (encoder_pos : ℤ) (accel : ℚ × ℚ × ℚ)
    (power_off : Bool) (current_time : ℚ) : Game :=
  let g1 :=
    if g.state = GameState.PLAYING then
      if encoder_pos ≠ g.last_encoder_position then
        let diff := encoder_pos - g.last_encoder_position
        if |diff| ≤ 100 ∧ diff ≠ 0 then
          if 0 < diff then
            { g with
                encoder_action_pending :=
                  some ("rotate_right", current_time + RESPONSE_DELAY)
                last_encoder_position := encoder_pos }
          else
            { g with
                encoder_action_pending :=
                  some ("rotate_left", current_time + RESPONSE_DELAY)
                last_encoder_position := encoder_pos }
        else g
      else g
    else g
  let g2 :=
    match g1.encoder_action_pending with
    | some pending =>
      if pending.2 ≤ current_time then
        let gc :=
          if g1.state = GameState.PLAYING then
            g1.check_cut_action pending.1 current_time
          else g1
        { gc with encoder_action_pending := none }
      else g1
    | none => g1
  if power_off then g2
  else
    let accel_threshold : ℚ := 2.0
    let g3 :=
      if 0.1 < current_time - g2.last_accel_action_time then
        let y := accel.2.1
        let pending :=
          if accel_threshold < y ∧ g2.last_accel_y ≤ accel_threshold then
            some ("forward", current_time + RESPONSE_DELAY)
          else if y < -accel_threshold ∧ -accel_threshold ≤ g2.last_accel_y then
            some ("backward", current_time + RESPONSE_DELAY)
          else g2.accel_action_pending
        { g2 with
            accel_action_pending := pending
            last_accel_y := y
            last_accel_action_time := current_time }
      else g2
    match g3.accel_action_pending with
    | some pending =>
      if pending.2 ≤ current_time then
        let gc :=
          if g3.state = GameState.PLAYING then
            g3.check_cut_action pending.1 current_time
          else g3
        { gc with accel_action_pending := none }
      else g3
    | none => g3

/-- Source `Game._update_game_over(self)` (lines 800-827).  The fresh
`time.monotonic()` read is `current_time` and the debounced button read
`read_pin_stable(encoder_button)` is `button_current`. -/
def Game.update_game_over (g : Game) (button_current : Bool)
    (current_time : ℚ) : Game :=
  let press_time :=
    if button_current && !g.game_over_button_last_state then current_time
    else g.game_over_button_press_time
  let g1 := { g with game_over_button_press_time := press_time }
  let g2 :=
    if button_current ∧ 0 < press_time ∧ 0.2 < current_time - press_time then
      Game.update_level_index_from_difficulty
        { g1 with
            state := GameState.MENU
            current_level := none
            current_difficulty_index := 0
            led_state := "idle"
            game_over_button_press_time := 0 }
    else g1
  let g3 :=
    if !button_current && g.game_over_button_last_state then
      { g2 with game_over_button_press_time := 0 }
    else g2
  { g3 with game_over_button_last_state := button_current }

/-! ## Concrete fixtures used by the witnesses -/

/-- The session state right after `Game.__init__` (lines 543-590), with the
encoder position read as `0` and the power switch read as `False`. -/
def initGame : Game :=
  { state := GameState.MENU
    current_difficulty_index := 0
    current_level_index := 0
    current_level := none
    apples := []
    sliced_count := 0
    game_start_time := 0
    last_apple_spawn_time := 0
    apple_spawn_interval := 0
    pause_start_time := 0
    total_pause_time := 0
    last_encoder_position := 0
    last_encoder_action_time := 0
    last_accel_y := 0
    last_accel_action_time := 0
    encoder_action_pending := none
    accel_action_pending := none
    led_state := "idle"
    led_brightness := 0.1
    led_brightness_dir := 1
    last_led_update := 0
    button_last_state := false
    button_press_start_time := 0
    button_action_done := false
    game_over_button_last_state := false
    game_over_button_press_time := 0
    last_power_switch_state := false }

/-- A `top`-spawned apple (speed class `slow`, spawn timestamp `0`); its
unit direction is exactly `(0, 1)` (see `top_unit_direction_exact`). -/
def topApple : Apple := Apple.spawn "top" 20 0 (0, 1)

/-- Source `topApple` after entering the valid zone at time 0. -/
def enteredApple : Apple :=
  { topApple with
      entered_valid_zone := true
      valid_zone_entry_time := some 0 }

/-- Source `topApple` after being sliced. -/
def slicedApple : Apple :=
  { topApple with sliced := true }

/-- The level table's first entry, `{apples: 10, time: 60}` (cadence 6.0 s). -/
def lvl0 : Level := ⟨"E1:EZ 10A 60S", "slow", 10, 60, "easy"⟩

/-- A direction oracle that always spawns from `top` (unit vector (0, 1)). -/
def dirs0 : ℕ → String × (ℚ × ℚ) := fun _ => ("top", (0, 1))

/-- A Playing session on `lvl0` with cadence 6, session start 0, no pause,
already holding one apple. -/
def spawnGame : Game :=
  { initGame with
      state := GameState.PLAYING
      current_level := LEVELS[0]?
      apple_spawn_interval := 6
      apples := [topApple] }

/-- A GameOver session with the confirm button held since time 1. -/
def overGame : Game :=
  { initGame with
      state := GameState.GAME_OVER
      current_difficulty_index := 2
      current_level := LEVELS[7]?
      sliced_count := 5
      apples := [slicedApple]
      total_pause_time := 3
      game_over_button_last_state := true
      game_over_button_press_time := 1 }

/-- A Playing session with filtered Y history 1.0, quiet encoder, and no
pending actions, ready to sample the accelerometer. -/
def accelGame : Game :=
  { initGame with
      state := GameState.PLAYING
      last_accel_y := 1 }

/-- A Playing session holding two identical qualifying `forward` apples. -/
def cutGame : Game :=
  { initGame with
      state := GameState.PLAYING
      apples := [enteredApple, enteredApple] }

/-- A Playing session holding only a sliced (hence non-qualifying) apple. -/
def missGame : Game :=
  { initGame with
      state := GameState.PLAYING
      apples := [slicedApple] }

/-! ## Theorems -/

/-- For the `top` spawn point the source's `math.sqrt` computation is exact:
`dx = 0`, `dy = 35`, `distance = 35` (since `35^2 = 0^2 + 35^2`), and the
unit direction is exactly `(0, 1)` — so `topApple` carries exactly the
direction vector the source computes. -/
theorem top_unit_direction_exact :
    SCREEN_CENTER.1 - (SPAWN_POSITIONS "top").1 = 0 ∧
    SCREEN_CENTER.2 - (SPAWN_POSITIONS "top").2 = 35 ∧
    (35 : ℚ) ^ 2 = 0 ^ 2 + 35 ^ 2 ∧ (0 : ℚ) / 35 = 0 ∧ (35 : ℚ) / 35 = 1 := by
  refine ⟨?_, ?_, by norm_num, by norm_num, by norm_num⟩ <;>
    norm_num [SCREEN_CENTER, SPAWN_POSITIONS]

/-- A sliced or expired apple is left untouched by `update`
(lines 507-508). -/
theorem Apple.update_dead (a : Apple) (now : ℚ)
    (h : a.sliced = true ∨ a.expired = true) : a.update now = a := by
  unfold Apple.update
  rcases h with h | h <;> simp [h]

/-- Source `update` never changes the frozen spawn parameters, the `sliced` flag
or the expected action. -/
theorem Apple.update_params (a : Apple) (now : ℚ) :
    (a.update now).spawn_direction = a.spawn_direction ∧
    (a.update now).speed = a.speed ∧
    (a.update now).start_time = a.start_time ∧
    (a.update now).start_pos = a.start_pos ∧
    (a.update now).dirx = a.dirx ∧
    (a.update now).diry = a.diry ∧
    (a.update now).sliced = a.sliced ∧
    (a.update now).expected_action = a.expected_action := by
  unfold Apple.update
  split <;> simp

/-- The position `update` would compute is invariant under `update`. -/
theorem Apple.posAt_update (a : Apple) (t u : ℚ) :
    (a.update t).posAt u = a.posAt u := by
  have h := Apple.update_params a t
  simp [Apple.posAt, h.2.1, h.2.2.1, h.2.2.2.1, h.2.2.2.2.1, h.2.2.2.2.2.1]

/-- The zone test `outsideAt` is invariant under `update`. -/
theorem Apple.outsideAt_update (a : Apple) (t u : ℚ) :
    (a.update t).outsideAt u = a.outsideAt u := by
  simp [Apple.outsideAt, Apple.posAt_update]

/-- Once `entered_valid_zone` holds, `update` keeps it and never rewrites
`valid_zone_entry_time` (lines 516-519 only fire when the flag is still
false). -/
theorem Apple.update_entered_frozen (a : Apple) (t : ℚ)
    (h : a.entered_valid_zone = true) :
    (a.update t).entered_valid_zone = true ∧
    (a.update t).valid_zone_entry_time = a.valid_zone_entry_time := by
  unfold Apple.update
  split
  · simp_all
  · simp [h]

/-- Iterated form of `Apple.update_entered_frozen`. -/
theorem Apple.updates_entered_frozen (ts : List ℚ) (a : Apple)
    (h : a.entered_valid_zone = true) :
    (a.updates ts).entered_valid_zone = true ∧
    (a.updates ts).valid_zone_entry_time = a.valid_zone_entry_time := by
  induction ts generalizing a with
  | nil => exact ⟨h, rfl⟩
  | cons t ts ih =>
    have h1 := Apple.update_entered_frozen a t h
    have h2 := ih (a.update t) h1.1
    exact ⟨h2.1, h2.2.trans h1.2⟩

/-- A fresh (not yet entered, alive) apple whose newly computed position is
outside the forbidden rectangle enters the valid zone at this call and
records the call's `now`. -/
theorem Apple.update_fresh_outside (a : Apple) (t : ℚ)
    (hs : a.sliced = false) (he : a.expired = false)
    (hz : a.entered_valid_zone = false) (hout : a.outsideAt t = true) :
    (a.update t).entered_valid_zone = true ∧
    (a.update t).valid_zone_entry_time = some t := by
  simp only [Apple.outsideAt, Apple.posAt, Bool.not_eq_true'] at hout
  unfold Apple.update
  simp [hs, he, hz, hout]

/-- A fresh apple whose newly computed position is still inside the
forbidden rectangle stays fresh: no flag is set and no entry time is
recorded (the rectangle lies inside the screen bounds, so the off-screen
expiry of lines 525-527 cannot fire either). -/
theorem Apple.update_fresh_inside (a : Apple) (t : ℚ)
    (hs : a.sliced = false) (he : a.expired = false)
    (hz : a.entered_valid_zone = false) (hv : a.valid_zone_entry_time = none)
    (hin : a.outsideAt t = false) :
    (a.update t).sliced = false ∧ (a.update t).expired = false ∧
    (a.update t).entered_valid_zone = false ∧
    (a.update t).valid_zone_entry_time = none := by
  simp only [Apple.outsideAt, Apple.posAt, Bool.not_eq_false'] at hin
  have hin' : INVALID_REGION.x_min ≤ a.start_pos.1 + a.dirx * (a.speed * (t - a.start_time)) ∧
      a.start_pos.1 + a.dirx * (a.speed * (t - a.start_time)) ≤ INVALID_REGION.x_max ∧
      INVALID_REGION.y_min ≤ a.start_pos.2 + a.diry * (a.speed * (t - a.start_time)) ∧
      a.start_pos.2 + a.diry * (a.speed * (t - a.start_time)) ≤ INVALID_REGION.y_max := by
    rw [in_invalid_region, decide_eq_true_eq] at hin
    exact hin
  have hb : ¬(a.start_pos.1 + a.dirx * (a.speed * (t - a.start_time)) < -APPLE_SIZE.1 ∨
      a.start_pos.1 + a.dirx * (a.speed * (t - a.start_time)) > OLED_WIDTH + APPLE_SIZE.1 ∨
      a.start_pos.2 + a.diry * (a.speed * (t - a.start_time)) < -APPLE_SIZE.2 ∨
      a.start_pos.2 + a.diry * (a.speed * (t - a.start_time)) > OLED_HEIGHT + APPLE_SIZE.2) := by
    obtain ⟨h1, h2, h3, h4⟩ := hin'
    simp only [APPLE_SIZE, OLED_WIDTH, OLED_HEIGHT, INVALID_REGION] at *
    push_neg
    exact ⟨by linarith, by linarith, by linarith, by linarith⟩
  unfold Apple.update
  simp [hs, he, hz, hv, hin, hb]

/-- The full zone-entry trace of a freshly spawned apple: across any call
sequence `ts`, the entry time is exactly the first `t ∈ ts` whose computed
position is outside the forbidden rectangle, and `entered_valid_zone`
records whether such a `t` exists. -/
theorem Apple.zone_entry_trace (ts : List ℚ) (a : Apple)
    (hs : a.sliced = false) (he : a.expired = false)
    (hz : a.entered_valid_zone = false)
    (hv : a.valid_zone_entry_time = none) :
    (a.updates ts).valid_zone_entry_time = ts.find? a.outsideAt ∧
    (a.updates ts).entered_valid_zone = (ts.find? a.outsideAt).isSome := by
  induction ts generalizing a with
  | nil => simp [Apple.updates, hv, hz]
  | cons t ts ih =>
    have hstep : a.updates (t :: ts) = (a.update t).updates ts := rfl
    by_cases hout : a.outsideAt t = true
    · have hfind : (t :: ts).find? a.outsideAt = some t := by
        simp [List.find?, hout]
      have h1 := Apple.update_fresh_outside a t hs he hz hout
      have h2 := Apple.updates_entered_frozen ts (a.update t) h1.1
      rw [hstep, hfind]
      exact ⟨h2.2.trans h1.2, by simp [h2.1]⟩
    · have hout' : a.outsideAt t = false := by simp_all
      have hfind : (t :: ts).find? a.outsideAt = ts.find? a.outsideAt := by
        simp [List.find?, hout']
      have h1 := Apple.update_fresh_inside a t hs he hz hv hout'
      have h2 := ih (a.update t) h1.1 h1.2.1 h1.2.2.1 h1.2.2.2
      have hfun : (a.update t).outsideAt = a.outsideAt :=
        funext fun u => Apple.outsideAt_update a t u
      rw [hstep, hfind, ← hfun]
      exact h2

/-- Claim C2. For every apple entity, `entered_valid_zone` transitions from
false to true at most once across any sequence of `update` calls, and
`valid_zone_entry_time` is set exactly once, to the `now` argument of the
first update call at which the computed position lies outside the forbidden
central rectangle, and is never changed afterwards: starting from the
freshly spawned state, after any call sequence `ts` the entry time is
exactly the first element of `ts` whose computed position is outside the
rectangle (and `entered_valid_zone` records whether such a call happened);
moreover, once `entered_valid_zone` is true it stays true with the entry
time frozen, under every further `update`. -/
theorem C2_zone_entry_once (a : Apple) (ts : List ℚ)
    (hs : a.sliced = false) (he : a.expired = false)
    (hz : a.entered_valid_zone = false)
    (hv : a.valid_zone_entry_time = none) :
    (a.updates ts).valid_zone_entry_time = ts.find? a.outsideAt ∧
    (a.updates ts).entered_valid_zone = (ts.find? a.outsideAt).isSome ∧
    ∀ (b : Apple) (t : ℚ), b.entered_valid_zone = true →
      (b.update t).entered_valid_zone = true ∧
      (b.update t).valid_zone_entry_time = b.valid_zone_entry_time := by
  have h := Apple.zone_entry_trace ts a hs he hz hv
  exact ⟨h.1, h.2, fun b t hb => Apple.update_entered_frozen b t hb⟩

/-- Witness for C2: a fresh `top` apple (speed 20, spawned at 0) updated at
times 1.5 and 3: at 1.5 its position (63, 30) is inside the forbidden
rectangle, at 3 its position (63, 60) is outside, so the entry time is
exactly `some 3`. -/
theorem C2_zone_entry_once_witness :
    topApple.sliced = false ∧ topApple.expired = false ∧
    topApple.entered_valid_zone = false ∧
    topApple.valid_zone_entry_time = none ∧
    (topApple.updates [1.5, 3]).valid_zone_entry_time =
      [1.5, 3].find? topApple.outsideAt ∧
    [1.5, 3].find? topApple.outsideAt = some 3 :=
  ⟨rfl, rfl, rfl, rfl,
    (C2_zone_entry_once topApple [1.5, 3] rfl rfl rfl rfl).1, by
      have h1 : topApple.outsideAt 1.5 = false := by
        norm_num [topApple, Apple.outsideAt, Apple.posAt, Apple.spawn,
          in_invalid_region, INVALID_REGION, SPAWN_POSITIONS]
      have h2 : topApple.outsideAt 3 = true := by
        norm_num [topApple, Apple.outsideAt, Apple.posAt, Apple.spawn,
          in_invalid_region, INVALID_REGION, SPAWN_POSITIONS]
      simp [List.find?, h1, h2]⟩

/-- Claim C3. For every apple entity with `entered_valid_zone` true and not
yet sliced, if at a call `update(entity, now)` the difference
`now - valid_zone_entry_time` exceeds the fixed cut-time-limit (4.0 s),
then that call sets `expired = true` (lines 521-523; when the entity was
already expired the call is a no-op and `expired` stays true). -/
theorem C3_cut_window_expiry (a : Apple) (now v : ℚ)
    (hz : a.entered_valid_zone = true) (hs : a.sliced = false)
    (hv : a.valid_zone_entry_time = some v)
    (hlim : now - v > CUT_TIME_LIMIT) :
    (a.update now).expired = true := by
  by_cases he : a.expired = true
  · rw [Apple.update_dead a now (Or.inr he)]; exact he
  · have he' : a.expired = false := by simp_all
    unfold Apple.update
    simp [hs, he', hz, hv, hlim]

/-- Witness for C3: an entered apple with entry time 0 updated at time 5
(5 - 0 > 4) expires. -/
theorem C3_cut_window_expiry_witness :
    enteredApple.entered_valid_zone = true ∧
    enteredApple.sliced = false ∧
    (5 : ℚ) - 0 > CUT_TIME_LIMIT ∧
    (enteredApple.update 5).expired = true :=
  ⟨rfl, rfl, by norm_num [CUT_TIME_LIMIT],
    C3_cut_window_expiry enteredApple 5 0 rfl rfl rfl
      (by norm_num [CUT_TIME_LIMIT])⟩

/-- Claim C4. For every apple entity and every time `now`, if `sliced` or
`expired` is true before a call `update(entity, now)`, the call changes
nothing — the whole record, hence position `(x, y)`,
`entered_valid_zone`, `valid_zone_entry_time`, `sliced` and `expired`, is
unchanged — for any number of further update calls. -/
theorem C4_update_noop_when_dead (a : Apple)
    (h : a.sliced = true ∨ a.expired = true) (ts : List ℚ) :
    a.updates ts = a := by
  induction ts with
  | nil => rfl
  | cons t ts ih =>
    simp only [Apple.updates, List.foldl_cons, Apple.update_dead a t h]
    exact ih

/-- Witness for C4: a sliced apple is untouched by two further updates. -/
theorem C4_update_noop_when_dead_witness :
    slicedApple.sliced = true ∧ slicedApple.updates [1, 2] = slicedApple :=
  ⟨rfl, C4_update_noop_when_dead slicedApple (Or.inl rfl) [1, 2]⟩

/-- One step of `check_cut_loop`, with the five-way `continue`/`break`
structure of the source loop collapsed into the single predicate
`cutQualifies`. -/
theorem check_cut_loop_cons (adjusted : ℚ) (action : String) (a : Apple)
    (rest : List Apple) :
    check_cut_loop adjusted action (a :: rest) =
      if cutQualifies adjusted action a then
        ({ a with sliced := true } :: rest, true)
      else
        (a :: (check_cut_loop adjusted action rest).1,
          (check_cut_loop adjusted action rest).2) := by
  simp only [check_cut_loop]
  by_cases h1 : (a.sliced || a.expired) = true
  · simp [cutQualifies, h1]
  · by_cases h2 : a.entered_valid_zone = true
    · by_cases h3 : a.is_in_valid_zone = true
      · by_cases h4 : (a.expected_action == some action) = true
        · cases hv : a.valid_zone_entry_time with
          | none => simp [cutQualifies, h1, h2, h3, h4, hv]
          | some entry =>
            by_cases h5 : 0 ≤ adjusted - entry ∧
                adjusted - entry ≤ CUT_TIME_LIMIT
            · simp [cutQualifies, h1, h2, h3, h4, hv, h5]
            · simp [cutQualifies, h1, h2, h3, h4, hv, h5]
        · simp [cutQualifies, h1, h2, h3, h4]
      · simp [cutQualifies, h1, h2, h3]
    · simp [cutQualifies, h1, h2]

/-- When no apple qualifies, the loop leaves the list untouched and reports
`sliced_any = False`. -/
theorem check_cut_loop_of_forall_not (adjusted : ℚ) (action : String)
    (l : List Apple)
    (h : ∀ b ∈ l, cutQualifies adjusted action b = false) :
    check_cut_loop adjusted action l = (l, false) := by
  induction l with
  | nil => rfl
  | cons a rest ih =>
    rw [check_cut_loop_cons]
    have ha := h a (List.mem_cons_self a rest)
    have hrest := ih fun b hb => h b (List.mem_cons_of_mem a hb)
    simp [ha, hrest]

/-- First-match-wins: with every apple before `a` non-qualifying and `a`
qualifying, the loop slices exactly `a`, leaves every other element (also
the ones after `a`) untouched, and stops. -/
theorem check_cut_loop_first_match (adjusted : ℚ) (action : String)
    (pre : List Apple) (a : Apple) (post : List Apple)
    (hpre : ∀ b ∈ pre, cutQualifies adjusted action b = false)
    (ha : cutQualifies adjusted action a = true) :
    check_cut_loop adjusted action (pre ++ a :: post) =
      (pre ++ { a with sliced := true } :: post, true) := by
  induction pre with
  | nil => simp [check_cut_loop_cons, ha]
  | cons b bs ih =>
    have hb := hpre b (List.mem_cons_self b bs)
    have hbs := ih fun c hc => hpre c (List.mem_cons_of_mem b hc)
    rw [List.cons_append, check_cut_loop_cons]
    simp [hb, hbs]

/-- Claim C1. Gesture matching: for every submitted action, live entities are
scanned in list (spawn) order; entities that are sliced, expired, not yet
zone-entered, or currently inside the forbidden central rectangle are
skipped (`cutQualifies` is false for them); the first remaining entity
whose `expected_action` equals the submitted action and whose zone-entry
time is within the cut-time-limit of the pause-adjusted now is marked
`sliced` and the slice count is incremented by one, then iteration stops —
so at most one entity is mutated (everything in `pre` and `post` is
returned unchanged), and given two qualifying entities with the same
`expected_action` the earlier-spawned one is sliced (the later one sits in
`post`). -/
theorem C1_gesture_first_match (g : Game) (action : String)
    (current_time : ℚ) (pre post : List Apple) (a : Apple)
    (hsplit : g.apples = pre ++ a :: post)
    (hpre : ∀ b ∈ pre,
      cutQualifies (current_time - g.total_pause_time) action b = false)
    (ha : cutQualifies (current_time - g.total_pause_time) action a = true) :
    (g.check_cut_action action current_time).apples =
      pre ++ { a with sliced := true } :: post ∧
    (g.check_cut_action action current_time).sliced_count =
      g.sliced_count + 1 := by
  simp only [Game.check_cut_action]
  rw [hsplit, check_cut_loop_first_match _ _ pre a post hpre ha]
  simp

/-- Witness for C1: two identical qualifying `forward` apples; the
first-listed one is sliced, the second is untouched, and the count rises
from 0 to 1. -/
theorem C1_gesture_first_match_witness :
    cutGame.apples = [] ++ enteredApple :: [enteredApple] ∧
    cutQualifies (2 - cutGame.total_pause_time) "forward" enteredApple =
      true ∧
    (cutGame.check_cut_action "forward" 2).apples =
      [] ++ { enteredApple with sliced := true } :: [enteredApple] ∧
    (cutGame.check_cut_action "forward" 2).sliced_count =
      cutGame.sliced_count + 1 := by
  have hq : cutQualifies (2 - cutGame.total_pause_time) "forward"
      enteredApple = true := by
    norm_num [cutQualifies, enteredApple, topApple, Apple.spawn,
      Apple.is_in_valid_zone, Apple.is_in_invalid_region, in_invalid_region,
      INVALID_REGION, SPAWN_POSITIONS, expectedActionOf, CUT_TIME_LIMIT,
      cutGame, initGame]
  have h := C1_gesture_first_match cutGame "forward" 2 []
    [enteredApple] enteredApple rfl (by simp) hq
  exact ⟨rfl, hq, h.1, h.2⟩

/-- Claim C8. If a submitted action matches no qualifying entity while the
session is Playing, the feedback state is set to `"error"` with the match
timestamp recorded in `last_led_update`, and nothing else changes: the
apple list and the slice count are exactly those of the input state (and
the embedded `check_cut_action` is a total function — the miss is a state
change, not an exception propagated to the caller). -/
theorem C8_no_match_miss_signal (g : Game) (action : String)
    (current_time : ℚ) (hplay : g.state = GameState.PLAYING)
    (h : ∀ b ∈ g.apples,
      cutQualifies (current_time - g.total_pause_time) action b = false) :
    g.check_cut_action action current_time =
      { g with led_state := "error", last_led_update := current_time } := by
  simp only [Game.check_cut_action]
  rw [check_cut_loop_of_forall_not _ _ _ h]
  simp [hplay]

/-- Witness for C8: a Playing session whose only apple is already sliced;
a `forward` action flags an error and changes nothing else. -/
theorem C8_no_match_miss_signal_witness :
    missGame.state = GameState.PLAYING ∧
    cutQualifies (3 - missGame.total_pause_time) "forward" slicedApple =
      false ∧
    missGame.check_cut_action "forward" 3 =
      { missGame with led_state := "error", last_led_update := 3 } := by
  have hq : cutQualifies (3 - missGame.total_pause_time) "forward"
      slicedApple = false := by
    simp [cutQualifies, slicedApple]
  have h : ∀ b ∈ missGame.apples,
      cutQualifies (3 - missGame.total_pause_time) "forward" b = false := by
    intro b hb
    simp only [missGame, initGame, List.mem_singleton] at hb
    subst hb
    exact hq
  exact ⟨rfl, hq, C8_no_match_miss_signal missGame "forward" 3 rfl h⟩

/-- The spawn loop does nothing once the list already holds
`apples_to_spawn` apples. -/
theorem spawnLoop_eq_of_le (s st i : ℚ) (dirs : ℕ → String × (ℚ × ℚ))
    (needed : ℤ) (l : List Apple) (h : needed ≤ (l.length : ℤ)) :
    spawnLoop s st i dirs needed l = l := by
  unfold spawnLoop
  rw [dif_neg (by omega)]

/-- The spawn loop never touches the apples already in the list. -/
theorem spawnLoop_get_le (s st i : ℚ) (dirs : ℕ → String × (ℚ × ℚ))
    (needed : ℤ) :
    ∀ (l : List Apple) (k : ℕ), k < l.length →
      (spawnLoop s st i dirs needed l)[k]? = l[k]? := by
  suffices H : ∀ (n : ℕ) (l : List Apple),
      (needed - (l.length : ℤ)).toNat = n →
      ∀ (k : ℕ), k < l.length →
        (spawnLoop s st i dirs needed l)[k]? = l[k]? by
    intro l; exact H _ l rfl
  intro n
  induction n using Nat.strong_induction_on with
  | _ n ih =>
    intro l hn k hk
    by_cases h : (l.length : ℤ) < needed
    · have hbody : spawnLoop s st i dirs needed l =
          spawnLoop s st i dirs needed
            (l ++ [Apple.spawn (dirs l.length).1 s
              (st + (l.length : ℚ) * i) (dirs l.length).2]) := by
        conv_lhs => unfold spawnLoop
        rw [dif_pos h]
      rw [hbody]
      rw [ih ((needed - ((l ++ [Apple.spawn (dirs l.length).1 s
          (st + (l.length : ℚ) * i) (dirs l.length).2]).length : ℤ)).toNat)
        (by simp; omega) _ rfl k (by simp; omega)]
      exact List.getElem?_append_left hk
    · rw [spawnLoop_eq_of_le s st i dirs needed l (by omega)]

/-- Once the list is short of `apples_to_spawn`, the loop tops it up to
exactly that count. -/
theorem spawnLoop_length (s st i : ℚ) (dirs : ℕ → String × (ℚ × ℚ))
    (needed : ℤ) :
    ∀ (l : List Apple), (l.length : ℤ) ≤ needed →
      ((spawnLoop s st i dirs needed l).length : ℤ) = needed := by
  suffices H : ∀ (n : ℕ) (l : List Apple),
      (needed - (l.length : ℤ)).toNat = n → (l.length : ℤ) ≤ needed →
      ((spawnLoop s st i dirs needed l).length : ℤ) = needed by
    intro l; exact H _ l rfl
  intro n
  induction n using Nat.strong_induction_on with
  | _ n ih =>
    intro l hn hl
    by_cases h : (l.length : ℤ) < needed
    · have hbody : spawnLoop s st i dirs needed l =
          spawnLoop s st i dirs needed
            (l ++ [Apple.spawn (dirs l.length).1 s
              (st + (l.length : ℚ) * i) (dirs l.length).2]) := by
        conv_lhs => unfold spawnLoop
        rw [dif_pos h]
      rw [hbody]
      exact ih ((needed - ((l ++ [Apple.spawn (dirs l.length).1 s
          (st + (l.length : ℚ) * i) (dirs l.length).2]).length : ℤ)).toNat)
        (by simp; omega) _ rfl (by simp; omega)
    · rw [spawnLoop_eq_of_le s st i dirs needed l (by omega)]
      omega

/-- Every apple the loop appends beyond the original list is
`Apple.spawn` of the `k`-th random direction with the deterministic spawn
timestamp `game_start_time + k * apple_spawn_interval`. -/
theorem spawnLoop_get_new (s st i : ℚ) (dirs : ℕ → String × (ℚ × ℚ))
    (needed : ℤ) :
    ∀ (l : List Apple) (k : ℕ), l.length ≤ k → (k : ℤ) < needed →
      (spawnLoop s st i dirs needed l)[k]? =
        some (Apple.spawn (dirs k).1 s (st + (k : ℚ) * i) (dirs k).2) := by
  suffices H : ∀ (n : ℕ) (l : List Apple),
      (needed - (l.length : ℤ)).toNat = n →
      ∀ (k : ℕ), l.length ≤ k → (k : ℤ) < needed →
        (spawnLoop s st i dirs needed l)[k]? =
          some (Apple.spawn (dirs k).1 s (st + (k : ℚ) * i) (dirs k).2) by
    intro l; exact H _ l rfl
  intro n
  induction n using Nat.strong_induction_on with
  | _ n ih =>
    intro l hn k hge hlt
    by_cases h : (l.length : ℤ) < needed
    · have hbody : spawnLoop s st i dirs needed l =
          spawnLoop s st i dirs needed
            (l ++ [Apple.spawn (dirs l.length).1 s
              (st + (l.length : ℚ) * i) (dirs l.length).2]) := by
        conv_lhs => unfold spawnLoop
        rw [dif_pos h]
      rw [hbody]
      by_cases hke : k = l.length
      · rw [spawnLoop_get_le s st i dirs needed _ k (by simp; omega)]
        rw [hke, List.getElem?_append_right (le_refl l.length)]
        simp [hke]
      · rw [ih ((needed - ((l ++ [Apple.spawn (dirs l.length).1 s
            (st + (l.length : ℚ) * i) (dirs l.length).2]).length : ℤ)).toNat)
          (by simp; omega) _ rfl k (by simp; omega) hlt]
    · omega

/-- Claim C5. Spawn Scheduler: while Playing at pause-adjusted elapsed time
`e = current_time - total_pause_time - game_start_time` (with `0 ≤ e` and
the level not yet over), after the tick the number of entities in the list
equals `min(⌊e / cadence⌋ + 1, level apple target)`, with the cadence set
by `start_level` to `level duration / level apple target`; hence the count
never exceeds the target and is non-decreasing, and each entity spawned at
this tick carries the deterministic spawn timestamp
`session_start + index × cadence` — not the tick's own `now`. -/
theorem C5_spawn_scheduler (g : Game) (lvl : Level)
    (dirs : ℕ → String × (ℚ × ℚ)) (current_time : ℚ)
    (hlvl : g.current_level = some lvl)
    (hpos : 0 < lvl.apples)
    (hint : g.apple_spawn_interval = lvl.time / (lvl.apples : ℚ))
    (he0 : 0 ≤ current_time - g.total_pause_time - g.game_start_time)
    (heT : current_time - g.total_pause_time - g.game_start_time < lvl.time)
    (hlen : (g.apples.length : ℤ) ≤
      min (⌊(current_time - g.total_pause_time - g.game_start_time) /
        g.apple_spawn_interval⌋ + 1) (lvl.apples : ℤ)) :
    ((g.update_playing dirs current_time).apples.length : ℤ) =
      min (⌊(current_time - g.total_pause_time - g.game_start_time) /
        g.apple_spawn_interval⌋ + 1) (lvl.apples : ℤ) ∧
    (g.update_playing dirs current_time).apples.length ≤ lvl.apples ∧
    g.apples.length ≤ (g.update_playing dirs current_time).apples.length ∧
    ∀ (k : ℕ), g.apples.length ≤ k →
      k < (g.update_playing dirs current_time).apples.length →
      ((g.update_playing dirs current_time).apples[k]?.map
        Apple.start_time) =
        some (g.game_start_time + (k : ℚ) * g.apple_spawn_interval) := by
  have htpos : 0 < lvl.time := lt_of_le_of_lt he0 heT
  have hcad : 0 < g.apple_spawn_interval := by
    rw [hint]
    exact div_pos htpos (by exact_mod_cast hpos)
  have hdiv : 0 ≤ (current_time - g.total_pause_time - g.game_start_time) /
      g.apple_spawn_interval := div_nonneg he0 hcad.le
  have hremain :
      ¬(lvl.time -
        (current_time - g.total_pause_time - g.game_start_time) ≤ 0) := by
    linarith
  have htr : truncQ ((current_time - g.total_pause_time -
        g.game_start_time) / g.apple_spawn_interval) =
      ⌊(current_time - g.total_pause_time - g.game_start_time) /
        g.apple_spawn_interval⌋ := by
    rw [truncQ, if_pos hdiv]
  have happ : (g.update_playing dirs current_time).apples =
      (spawnLoop (SPEEDS lvl.speed) g.game_start_time
        g.apple_spawn_interval dirs
        (min (truncQ ((current_time - g.total_pause_time -
          g.game_start_time) / g.apple_spawn_interval) + 1)
          (lvl.apples : ℤ)) g.apples).map
        (fun apple => apple.update (current_time - g.total_pause_time)) := by
    simp only [Game.update_playing, hlvl]
    rw [if_neg hremain]
  rw [htr] at happ
  have hslen : ((spawnLoop (SPEEDS lvl.speed) g.game_start_time
      g.apple_spawn_interval dirs
      (min (⌊(current_time - g.total_pause_time - g.game_start_time) /
        g.apple_spawn_interval⌋ + 1) (lvl.apples : ℤ)) g.apples).length :
        ℤ) =
      min (⌊(current_time - g.total_pause_time - g.game_start_time) /
        g.apple_spawn_interval⌋ + 1) (lvl.apples : ℤ) :=
    spawnLoop_length _ _ _ _ _ _ hlen
  have h1 : ((g.update_playing dirs current_time).apples.length : ℤ) =
      min (⌊(current_time - g.total_pause_time - g.game_start_time) /
        g.apple_spawn_interval⌋ + 1) (lvl.apples : ℤ) := by
    rw [happ, List.length_map]
    exact hslen
  refine ⟨h1, ?_, ?_, ?_⟩
  · have h2 := min_le_right (⌊(current_time - g.total_pause_time -
      g.game_start_time) / g.apple_spawn_interval⌋ + 1) ((lvl.apples : ℤ))
    rw [← h1] at h2
    exact_mod_cast h2
  · have h3 := hlen
    rw [← h1] at h3
    exact_mod_cast h3
  · intro k hk1 hk2
    rw [happ, List.getElem?_map]
    rw [spawnLoop_get_new _ _ _ _ _ _ _ hk1 (by
      rw [happ, List.length_map] at hk2
      omega)]
    have hp := Apple.update_params
      (Apple.spawn (dirs k).1 (SPEEDS lvl.speed)
        (g.game_start_time + (k : ℚ) * g.apple_spawn_interval) (dirs k).2)
      (current_time - g.total_pause_time)
    have hq : ((Apple.spawn (dirs k).1 (SPEEDS lvl.speed)
        (g.game_start_time + (k : ℚ) * g.apple_spawn_interval)
        (dirs k).2).update
        (current_time - g.total_pause_time)).start_time =
        g.game_start_time + (k : ℚ) * g.apple_spawn_interval := by
      rw [hp.2.2.1]
      rfl
    simp [hq]

/-- Witness for C5 (the spec scenario): on the level `{apples: 10, time:
60}` (cadence 6.0 s) with one apple already spawned, a tick at adjusted
elapsed 6.0 exactly brings the count to `min(⌊6/6⌋ + 1, 10) = 2`, while a
tick at elapsed 3.0 leaves it at 1. -/
theorem C5_spawn_scheduler_witness :
    spawnGame.current_level = some lvl0 ∧ LEVELS[0]? = some lvl0 ∧
    spawnGame.apple_spawn_interval = lvl0.time / (lvl0.apples : ℚ) ∧
    (spawnGame.update_playing dirs0 6).apples.length = 2 ∧
    (spawnGame.update_playing dirs0 3).apples.length = 1 := by
  have hi : spawnGame.apple_spawn_interval = lvl0.time / (lvl0.apples : ℚ) := by
    norm_num [spawnGame, initGame, lvl0]
  have h6 := (C5_spawn_scheduler spawnGame lvl0 dirs0 6 rfl (by decide) hi
    (by norm_num [spawnGame, initGame])
    (by norm_num [spawnGame, initGame, lvl0])
    (by norm_num [spawnGame, initGame, lvl0])).1
  have h3 := (C5_spawn_scheduler spawnGame lvl0 dirs0 3 rfl (by decide) hi
    (by norm_num [spawnGame, initGame])
    (by norm_num [spawnGame, initGame, lvl0])
    (by norm_num [spawnGame, initGame, lvl0])).1
  have hv6 : min (⌊((6 : ℚ) - spawnGame.total_pause_time -
      spawnGame.game_start_time) / spawnGame.apple_spawn_interval⌋ + 1)
      ((lvl0.apples : ℤ)) = 2 := by
    norm_num [spawnGame, initGame, lvl0]
  have hv3 : min (⌊((3 : ℚ) - spawnGame.total_pause_time -
      spawnGame.game_start_time) / spawnGame.apple_spawn_interval⌋ + 1)
      ((lvl0.apples : ℤ)) = 1 := by
    norm_num [spawnGame, initGame, lvl0]
  rw [hv6] at h6
  rw [hv3] at h3
  exact ⟨rfl, rfl, hi, by exact_mod_cast h6, by exact_mod_cast h3⟩

/-- Claim C6. Pause accounting: for every wall-clock time `T` and pause
amount `δ ≥ 0`, the countdown's remaining time computed at `T` with
cumulative paused duration `δ` equals the remaining time computed at
`T - δ` with zero paused duration; and the whole Playing-state tick
behaves identically — `_update_playing` at `T` with pause `δ` produces
exactly the state `_update_playing` at `T - δ` with pause `0` produces
(up to the untouched `total_pause_time` field itself), because every
timing decision reads the adjusted clock
`wall_clock - cumulative_paused_duration - session_start_time`. -/
theorem C6_pause_accounting (g : Game) (dirs : ℕ → String × (ℚ × ℚ))
    (T δ : ℚ) (hδ : 0 ≤ δ) :
    Game.countdown_remaining { g with total_pause_time := δ } T =
      Game.countdown_remaining { g with total_pause_time := 0 } (T - δ) ∧
    Game.update_playing { g with total_pause_time := δ } dirs T =
      { Game.update_playing { g with total_pause_time := 0 } dirs (T - δ) with
          total_pause_time := δ } := by
  obtain ⟨st, cdi, cli, clvl, aps, sc, gst, lst, asi, pst, tpt, lep, leat,
    lay, laat, eap, aap, led, lb, lbd, llu, bls, bpst, bad, gobls, gobpt,
    lpss⟩ := g
  constructor
  · cases clvl with
    | none => rfl
    | some lvl => simp only [Game.countdown_remaining, sub_zero]
  · cases clvl with
    | none => rfl
    | some lvl =>
      simp only [Game.update_playing, sub_zero]
      by_cases hc : lvl.time - (T - δ - gst) ≤ 0
      · simp [hc]
      · simp only [if_neg hc]

/-- Claim C7. Accelerometer gesture source (with the encoder quiet: position
unchanged, no pending encoder action; power switch on).  A pending action
is created only on an edge of the filtered Y value — `forward` when Y
rises above the +2.0 threshold while the previous sample was ≤ +2.0,
`backward` when Y falls below −2.0 while the previous sample was ≥ −2.0,
and never while the tilt stays held past the threshold — and the pending
action is submitted to matching only at a tick whose time is at least
detection time + response delay (0.2 s), never at the detection tick
itself (conjuncts (i)/(ii) show the detecting tick leaves the apples and
the slice count untouched). -/
theorem C7_accel_pipeline (g : Game) (encoder_pos : ℤ) (x y z : ℚ)
    (power_off : Bool) (t : ℚ)
    (hqe : g.encoder_action_pending = none)
    (hpos : encoder_pos = g.last_encoder_position)
    (hpow : power_off = false) :
    ((0.1 : ℚ) < t - g.last_accel_action_time → (2.0 : ℚ) < y →
      g.last_accel_y ≤ (2.0 : ℚ) →
      (g.update_inputs encoder_pos (x, y, z) power_off t).accel_action_pending =
        some ("forward", t + RESPONSE_DELAY) ∧
      (g.update_inputs encoder_pos (x, y, z) power_off t).apples = g.apples ∧
      (g.update_inputs encoder_pos (x, y, z) power_off t).sliced_count =
        g.sliced_count) ∧
    ((0.1 : ℚ) < t - g.last_accel_action_time → y < -(2.0 : ℚ) →
      -(2.0 : ℚ) ≤ g.last_accel_y →
      (g.update_inputs encoder_pos (x, y, z) power_off t).accel_action_pending =
        some ("backward", t + RESPONSE_DELAY) ∧
      (g.update_inputs encoder_pos (x, y, z) power_off t).apples = g.apples ∧
      (g.update_inputs encoder_pos (x, y, z) power_off t).sliced_count =
        g.sliced_count) ∧
    ((0.1 : ℚ) < t - g.last_accel_action_time →
      ¬((2.0 : ℚ) < y ∧ g.last_accel_y ≤ (2.0 : ℚ)) →
      ¬(y < -(2.0 : ℚ) ∧ -(2.0 : ℚ) ≤ g.last_accel_y) →
      g.accel_action_pending = none →
      (g.update_inputs encoder_pos (x, y, z) power_off t).accel_action_pending =
        none) ∧
    (∀ (action : String) (fire_at : ℚ),
      g.accel_action_pending = some (action, fire_at) →
      ¬((0.1 : ℚ) < t - g.last_accel_action_time) →
      ((t < fire_at →
        g.update_inputs encoder_pos (x, y, z) power_off t = g) ∧
       (fire_at ≤ t → g.state = GameState.PLAYING →
        g.update_inputs encoder_pos (x, y, z) power_off t =
          { g.check_cut_action action t with accel_action_pending := none }))) := by
  subst hpos
  subst hpow
  have hdelay : ¬(t + RESPONSE_DELAY ≤ t) := by
    have : (0 : ℚ) < RESPONSE_DELAY := by norm_num [RESPONSE_DELAY]
    intro h
    linarith
  refine ⟨?_, ?_, ?_, ?_⟩
  · intro hsamp hy hlast
    simp [Game.update_inputs, hqe, hsamp, hy, hlast, hdelay]
  · intro hsamp hy hlast
    have hne : ¬((2.0 : ℚ) < y ∧ g.last_accel_y ≤ (2.0 : ℚ)) := by
      intro hcontra
      have : y < (2.0 : ℚ) := by linarith
      linarith [hcontra.1]
    simp [Game.update_inputs, hqe, hsamp, hy, hlast, hne, hdelay]
  · intro hsamp hne1 hne2 hpend
    simp [Game.update_inputs, hqe, hsamp, hne1, hne2, hpend]
  · intro action fire_at hpend hsamp
    constructor
    · intro hlt
      simp [Game.update_inputs, hqe, hsamp, hpend, not_le.mpr hlt]
    · intro hge hplay
      simp [Game.update_inputs, hqe, hsamp, hpend, hge, hplay]

/-- Witness for C7 (the spec scenario): in a Playing session with filtered
Y history 1.0, a sample of 2.5 at `t = 1` records a pending
`("forward", 1 + response delay)` and does not fire at the detection tick
(apples and count untouched). -/
theorem C7_accel_pipeline_witness :
    accelGame.encoder_action_pending = none ∧
    (0 : ℤ) = accelGame.last_encoder_position ∧
    (0.1 : ℚ) < 1 - accelGame.last_accel_action_time ∧
    (2.0 : ℚ) < 2.5 ∧ accelGame.last_accel_y ≤ (2.0 : ℚ) ∧
    (accelGame.update_inputs 0 (0, 2.5, 9.8) false 1).accel_action_pending =
      some ("forward", 1 + RESPONSE_DELAY) ∧
    (accelGame.update_inputs 0 (0, 2.5, 9.8) false 1).apples =
      accelGame.apples ∧
    (accelGame.update_inputs 0 (0, 2.5, 9.8) false 1).sliced_count =
      accelGame.sliced_count := by
  have h := (C7_accel_pipeline accelGame 0 0 2.5 9.8 false 1 rfl rfl rfl).1
    (by norm_num [accelGame, initGame]) (by norm_num)
    (by norm_num [accelGame, initGame])
  exact ⟨rfl, rfl, by norm_num [accelGame, initGame], by norm_num,
    by norm_num [accelGame, initGame], h.1, h.2.1, h.2.2⟩

/-- Every entry of the level table has a positive apple target. -/
theorem LEVELS_apples_pos : ∀ lvl ∈ LEVELS, 0 < lvl.apples := by decide

/-- Claim C9. Executing the GameOver→Menu transition (a debounced press held
longer than the fixed 0.2 s confirm interval, which resets the difficulty
selection to its initial index 0, hence level index 0, and clears the
active level) followed immediately by Menu→Playing (`start_level`) yields
`sliced_count = 0`, an empty entity list, session start time set to the
start instant `t2`, cumulative pause time reset to 0, and cadence
recomputed as level duration / level apple target. -/
theorem C9_reset_then_start (g : Game) (t1 t2 : ℚ) (idx : ℕ)
    (hidx : idx < LEVELS.length)
    (hheld : g.game_over_button_last_state = true)
    (hp : 0 < g.game_over_button_press_time)
    (hlong : (0.2 : ℚ) < t1 - g.game_over_button_press_time) :
    (g.update_game_over true t1).state = GameState.MENU ∧
    (g.update_game_over true t1).current_level = none ∧
    (g.update_game_over true t1).current_difficulty_index = 0 ∧
    (g.update_game_over true t1).current_level_index = 0 ∧
    ((g.update_game_over true t1).start_level idx t2).1.sliced_count = 0 ∧
    ((g.update_game_over true t1).start_level idx t2).1.apples = [] ∧
    ((g.update_game_over true t1).start_level idx t2).1.game_start_time = t2 ∧
    ((g.update_game_over true t1).start_level idx t2).1.total_pause_time = 0 ∧
    ((g.update_game_over true t1).start_level idx t2).1.apple_spawn_interval =
      (LEVELS.get ⟨idx, hidx⟩).time / ((LEVELS.get ⟨idx, hidx⟩).apples : ℚ) ∧
    ((g.update_game_over true t1).start_level idx t2).1.state =
      GameState.PLAYING := by
  have htl : pyLower "EASY" = "easy" := by decide
  have hmain : g.update_game_over true t1 =
      { g with
          state := GameState.MENU
          current_level := none
          current_difficulty_index := 0
          current_level_index := 0
          led_state := "idle"
          game_over_button_press_time := 0
          game_over_button_last_state := true } := by
    simp only [Game.update_game_over, hheld]
    simp [hp, hlong, Game.update_level_index_from_difficulty,
      DIFFICULTY_NAMES, DIFFICULTY_LEVELS, htl]
  have hpos := LEVELS_apples_pos (LEVELS.get ⟨idx, hidx⟩)
    (LEVELS.get_mem idx hidx)
  rw [List.get_eq_getElem] at hpos
  rw [hmain]
  simp [Game.start_level, hidx, hpos]

/-- Witness for C9: a GameOver session (difficulty `hard`, level `H1`,
score 5, paused time 3, one sliced apple in the list) confirms at
`t1 = 1.5` (held since 1, 0.5 s > 0.2 s) and restarts level 0 at
`t2 = 2`: the session is fully reset and the cadence is 60/10 = 6. -/
theorem C9_reset_then_start_witness :
    overGame.game_over_button_last_state = true ∧
    (0 : ℚ) < overGame.game_over_button_press_time ∧
    (0.2 : ℚ) < 1.5 - overGame.game_over_button_press_time ∧
    (overGame.update_game_over true 1.5).state = GameState.MENU ∧
    (overGame.update_game_over true 1.5).current_level = none ∧
    (overGame.update_game_over true 1.5).current_difficulty_index = 0 ∧
    ((overGame.update_game_over true 1.5).start_level 0 2).1.sliced_count =
      0 ∧
    ((overGame.update_game_over true 1.5).start_level 0 2).1.apples = [] ∧
    ((overGame.update_game_over true 1.5).start_level 0 2).1.game_start_time =
      2 ∧
    ((overGame.update_game_over true 1.5).start_level 0 2).1.total_pause_time =
      0 ∧
    ((overGame.update_game_over true 1.5).start_level 0 2).1.apple_spawn_interval =
      6 := by
  have h := C9_reset_then_start overGame 1.5 2 0 (by norm_num [LEVELS])
    rfl (by norm_num [overGame, initGame]) (by norm_num [overGame, initGame])
  refine ⟨rfl, by norm_num [overGame, initGame],
    by norm_num [overGame, initGame], h.1, h.2.1, h.2.2.1, h.2.2.2.2.1,
    h.2.2.2.2.2.1, h.2.2.2.2.2.2.1, h.2.2.2.2.2.2.2.1, ?_⟩
  have hi := h.2.2.2.2.2.2.2.2.1
  rw [hi]
  norm_num [LEVELS]

/-- Witness for C6: on `spawnGame` with `δ = 2`, a tick at `T = 10` with
pause 2 matches a tick at `T - 2` with pause 0. -/
theorem C6_pause_accounting_witness :
    (0 : ℚ) ≤ 2 ∧
    (Game.countdown_remaining { spawnGame with total_pause_time := 2 } 10 =
      Game.countdown_remaining { spawnGame with total_pause_time := 0 }
        (10 - 2) ∧
    Game.update_playing { spawnGame with total_pause_time := 2 } dirs0 10 =
      { Game.update_playing { spawnGame with total_pause_time := 0 } dirs0
          (10 - 2) with total_pause_time := 2 }) :=
  ⟨by norm_num, C6_pause_accounting spawnGame dirs0 10 2 (by norm_num)⟩

/-- Counterexample to C10 as stated: it is not true that for every apple
the very first `update` call sets `entered_valid_zone = true`.  A
`top`-spawned apple (speed 20, spawn timestamp 0, exact unit direction
(0, 1)) whose first update happens at `now = 1.5` — possible, because
spawn timestamps are backdated to `session_start + index × cadence` —
has computed position (63, 30), inside the forbidden rectangle, and the
call leaves `entered_valid_zone = false` with no entry time recorded. -/
theorem C10_first_update_counterexample :
    (topApple.update 1.5).entered_valid_zone = false ∧
    (topApple.update 1.5).valid_zone_entry_time = none ∧
    topApple.outsideAt 1.5 = false ∧
    (topApple.posAt 1.5).1 = 63 ∧ (topApple.posAt 1.5).2 = 30 := by
  have hpos1 : (topApple.posAt 1.5).1 = 63 := by
    norm_num [topApple, Apple.spawn, Apple.posAt, SPAWN_POSITIONS]
  have hpos2 : (topApple.posAt 1.5).2 = 30 := by
    norm_num [topApple, Apple.spawn, Apple.posAt, SPAWN_POSITIONS]
  have hout : topApple.outsideAt 1.5 = false := by
    simp only [Apple.outsideAt, hpos1, hpos2, Bool.not_eq_false']
    norm_num [in_invalid_region, INVALID_REGION]
  have h := Apple.update_fresh_inside topApple 1.5 rfl rfl rfl rfl hout
  exact ⟨h.2.2.1, h.2.2.2, hout, hpos1, hpos2⟩

/-- Claim C10, amended. All four spawn positions — top (63,0), bottom
(63,63), left (0,31), right (127,31) — lie outside the forbidden central
rectangle, so an update call at the spawn timestamp itself (where the
computed position is still the spawn position) sets
`entered_valid_zone = true` and records `valid_zone_entry_time` as that
call's `now`; the cut-time window therefore starts at the first update
whose computed position lies outside the rectangle — immediately at the
spawn position, not only when the apple approaches the screen center —
but a sufficiently delayed first update can already find the apple inside
the rectangle (see the counterexample). -/
theorem C10_spawn_positions_valid (d : String) (speed t0 : ℚ)
    (dir : ℚ × ℚ) :
    in_invalid_region (SPAWN_POSITIONS d).1 (SPAWN_POSITIONS d).2 = false ∧
    ((Apple.spawn d speed t0 dir).update t0).entered_valid_zone = true ∧
    ((Apple.spawn d speed t0 dir).update t0).valid_zone_entry_time =
      some t0 := by
  have hreg : in_invalid_region (SPAWN_POSITIONS d).1
      (SPAWN_POSITIONS d).2 = false := by
    rw [SPAWN_POSITIONS]
    split_ifs <;> norm_num [in_invalid_region, INVALID_REGION]
  have hx : (Apple.spawn d speed t0 dir).outsideAt t0 = true := by
    simp [Apple.outsideAt, Apple.posAt, Apple.spawn, sub_self, mul_zero,
      add_zero, hreg]
  have h := Apple.update_fresh_outside (Apple.spawn d speed t0 dir) t0
    rfl rfl rfl hx
  exact ⟨hreg, h.1, h.2⟩

end AppleGame
